import Mathlib

/-!
Verification development for `examples/new_command.py`: an awscli extension
registering a top-level `config` command with sub-operations `foo`, `bar`
and `help`.

Python dictionaries are embedded as association lists (`List (String × α)`)
with unique keys; `d[k] = v` assignment is `dictInsert`, which replaces the
entry for `k` in place when present and appends otherwise.  Python object
identity for the mutable operation table is embedded with an explicit store
of tables indexed by `Nat` references, so that the help command constructed
with `command_table=op_table` can be seen to hold a reference to the very
table it is later inserted into.
-/

namespace NewCommand

/-- Python dict assignment `d[k] = v` on an association list: replace the
entry for `k` in place when the key is present, append `(k, v)` otherwise. -/
def dictInsert {α : Type} (d : List (String × α)) (k : String) (v : α) :
    List (String × α) :=
  match d with
  | [] => [(k, v)]
  | p :: rest => if p.1 == k then (k, v) :: rest else p :: dictInsert rest k v

/-- Python dict lookup `d[k]` on an association list. -/
def dictLookup {α : Type} (d : List (String × α)) (k : String) : Option α :=
  match d with
  | [] => none
  | p :: rest => if p.1 == k then some p.2 else dictLookup rest k

/-- Opaque stand-in for the parsed global options object (`parsed_globals`);
the extension never inspects it, only passes it through. -/
structure ParsedGlobals where
  raw : String
deriving DecidableEq

/-- `ConfigCommand.documentation` from the source. -/
def ConfigCommand.documentation : String := "Edit the AWSCLI config file"

/-- `ConfigHelpCommand.name` from the source. -/
def ConfigHelpCommand.name : String := "config"

/-- An element rendered into the help document by the host's document
style collaborator (`doc.style.h1`, `doc.style.h2`,
`doc.include_doc_string`). -/
inductive DocElem where
  | h1 (text : String)
  | h2 (text : String)
  | docString (text : String)
deriving DecidableEq

/-- The fields of a `HelpCommand` that the document event handlers read:
`help_command.name` and `help_command.obj.documentation`. -/
structure HelpCommandView where
  name : String
  obj_documentation : String
deriving DecidableEq

/-- `ConfigDocumentEventHandler.title` from the source:
`doc.style.h1(help_command.name)`. -/
def ConfigDocumentEventHandler.title (help_command : HelpCommandView) :
    List DocElem :=
  [DocElem.h1 help_command.name]

/-- `ConfigDocumentEventHandler.description` from the source:
`doc.style.h2('Description'); doc.include_doc_string(config.documentation)`
where `config = help_command.obj`. -/
def ConfigDocumentEventHandler.description (help_command : HelpCommandView) :
    List DocElem :=
  [DocElem.h2 "Description",
   DocElem.docString help_command.obj_documentation]

/-- The view of the `ConfigHelpCommand` instance built in
`_create_operations_table`: its `name` property is `'config'` and its `obj`
is the `ConfigCommand`, whose `documentation` is the static string. -/
def configHelpView : HelpCommandView :=
  { name := ConfigHelpCommand.name,
    obj_documentation := ConfigCommand.documentation }

/-- Modelled from the spec: `HelpCommand.__call__` (module `awscli.help`,
part of this repository but not under `src/`).  Per spec section 4.4, the
Help Renderer produces two rendered sections, a heading equal to the
command's name and a body derived from the static documentation string,
here by firing the `doc-title` and `doc-description` events registered by
`ConfigDocumentEventHandler.initialize` in that order. -/
def renderHelp : List DocElem :=
  ConfigDocumentEventHandler.title configHelpView ++
    ConfigDocumentEventHandler.description configHelpView

/-- A value stored in the operation table built by
`_create_operations_table`: the bound methods `do_foo` and `do_bar`, or the
`ConfigHelpCommand` instance, which holds a reference (`commandTableRef`)
to the mutable dict it was constructed with (`command_table=op_table`). -/
inductive OpHandler where
  | doFoo
  | doBar
  | configHelp (commandTableRef : Nat)
deriving DecidableEq

/-- An operation table: sub-operation name to handler. -/
abbrev OpTable := List (String × OpHandler)

/-- The heap of operation-table dict objects; a `Nat` reference indexes
into `tables`.  This embeds Python's object identity for the mutable dict
so that the self-reference created in `_create_operations_table` is
visible. -/
structure Store where
  tables : List OpTable
deriving DecidableEq

/-- Allocate a fresh empty dict (`op_table = {}`); returns the new store
and the reference to the fresh table. -/
def Store.alloc (s : Store) : Store × Nat :=
  (⟨s.tables ++ [[]]⟩, s.tables.length)

/-- Dereference a table. -/
def Store.table (s : Store) (r : Nat) : OpTable :=
  s.tables.getD r []

/-- In-place dict assignment `op_table[k] = v` on the table at reference
`r`. -/
def Store.insert (s : Store) (r : Nat) (k : String) (v : OpHandler) : Store :=
  ⟨s.tables.set r (dictInsert (s.table r) k v)⟩

/-- `ConfigCommand._create_operations_table` from the source: allocate a
fresh dict, insert `foo ↦ do_foo`, `bar ↦ do_bar`, then construct
`ConfigHelpCommand(self.session, self, command_table=op_table,
arg_table=None)` — which captures a reference to the still-mutable
`op_table` — and insert it under `help`.  Returns the store and the
reference to the table. -/
def ConfigCommand.create_operations_table (s : Store) : Store × Nat :=
  let r := (Store.alloc s).2
  let s0 := (Store.alloc s).1
  let s1 := Store.insert s0 r "foo" OpHandler.doFoo
  let s2 := Store.insert s1 r "bar" OpHandler.doBar
  let s3 := Store.insert s2 r "help" (OpHandler.configHelp r)
  (s3, r)

/-- `ConfigCommand.do_foo` from the source: `print('do foo now')`.  The
returned list is the lines the body emits to standard output; the Python
method returns `None`, so there is no return value to consume. -/
def ConfigCommand.do_foo (remaining_args : List String)
    (parsed_globals : ParsedGlobals) : List String :=
  ["do foo now"]

/-- `ConfigCommand.do_bar` from the source: `print('do bar now')`. -/
def ConfigCommand.do_bar (remaining_args : List String)
    (parsed_globals : ParsedGlobals) : List String :=
  ["do bar now"]

/-- Modelled from the spec: `ServiceArgParser.parse_known_args` (module
`awscli.argparser`, part of this repository but not under `src/`).  Per
spec sections 4.2, 7 and 8: the first remaining token is taken as the
requested sub-operation and the further tokens are passed through
unparsed; with no remaining tokens the literal `"help"` is selected; a
first token absent from the operation table is a usage error surfaced by
the argument parser (nonzero exit status). -/
def parseKnownArgs (keys : List String) (args : List String) :
    Except Unit (String × List String) :=
  match args with
  | [] => Except.ok ("help", [])
  | a :: rest => if a ∈ keys then Except.ok (a, rest) else Except.error ()

/-- Record of the one sub-operation handler call
`op_table[parsed_args.operation](remaining, parsed_globals)` made by the
dispatcher. -/
structure Invocation where
  op : String
  remaining : List String
  globals : ParsedGlobals
deriving DecidableEq

/-- Observable outcome of one dispatcher run: lines printed to stdout,
sections rendered into the help document, the process exit status, and the
handler call made (`none` when argument parsing failed before any handler
ran). -/
structure ExecResult where
  stdout : List String
  renderedDoc : List DocElem
  exitStatus : Nat
  invocation : Option Invocation
deriving DecidableEq

/-- Run the looked-up handler: `do_foo` and `do_bar` print their fixed
line; the `ConfigHelpCommand` renders the help document (modelled from the
spec, see `renderHelp`). All three accept `(remaining, parsed_globals)`
and none fails. -/
def runHandler (hdl : OpHandler) (op : String) (remaining : List String)
    (g : ParsedGlobals) : ExecResult :=
  match hdl with
  | OpHandler.doFoo =>
      ⟨ConfigCommand.do_foo remaining g, [], 0, some ⟨op, remaining, g⟩⟩
  | OpHandler.doBar =>
      ⟨ConfigCommand.do_bar remaining g, [], 0, some ⟨op, remaining, g⟩⟩
  | OpHandler.configHelp _ =>
      ⟨[], renderHelp, 0, some ⟨op, remaining, g⟩⟩

/-- `ConfigCommand.__call__` from the source: build the operations table,
parse the requested operation out of `args` with the service argument
parser (`parseKnownArgs`, modelled from the spec), and call
`op_table[parsed_args.operation](remaining, parsed_globals)`.  A usage
error from the parser ends the process with argparse's exit status 2 and
no handler runs. -/
def ConfigCommand.call (args : List String) (g : ParsedGlobals) (s : Store) :
    Store × ExecResult :=
  let st := (ConfigCommand.create_operations_table s).1
  let op_table := Store.table st (ConfigCommand.create_operations_table s).2
  match parseKnownArgs (op_table.map Prod.fst) args with
  | Except.error _ => (st, ⟨[], [], 2, none⟩)
  | Except.ok (op, remaining) =>
      match dictLookup op_table op with
      | some hdl => (st, runHandler hdl op remaining g)
      | none => (st, ⟨[], [], 2, none⟩)

/-- Opaque stand-in for the awscli `session` object. -/
structure Session where
  id : Nat
deriving DecidableEq

/-- The data a `ConfigCommand` instance is constructed from:
`ConfigCommand('config', session)`. -/
structure ConfigCommandData where
  name : String
  session : Session
deriving DecidableEq

/-- A value of the host's top-level command table: the `ConfigCommand`
this extension registers, or some pre-existing host command. -/
inductive TopCommand where
  | config (c : ConfigCommandData)
  | hostBuiltin (tag : Nat)
deriving DecidableEq

/-- The host's top-level command table. -/
abbrev CommandTable := List (String × TopCommand)

/-- `add_command` from the source: the `building-command-table` event
handler does `command_table['config'] = ConfigCommand('config', session)`.
The Python function returns `None`; its only effect is this dict
assignment, embedded here as returning the mutated table. -/
def add_command (command_table : CommandTable) (session : Session) :
    CommandTable :=
  dictInsert command_table "config" (TopCommand.config ⟨"config", session⟩)

/-! ### Helper lemmas about the embedded dict operations -/

theorem dictLookup_dictInsert_self {α : Type} (d : List (String × α))
    (k : String) (v : α) : dictLookup (dictInsert d k v) k = some v := by
  induction d with
  | nil => simp [dictInsert, dictLookup]
  | cons p rest ih =>
      by_cases hp : p.1 = k
      · simp [dictInsert, dictLookup, hp]
      · simp [dictInsert, dictLookup, hp, ih]

theorem filter_dictInsert {α : Type} (d : List (String × α)) (k : String)
    (v : α) :
    (dictInsert d k v).filter (fun p => p.1 != k) =
      d.filter (fun p => p.1 != k) := by
  induction d with
  | nil => simp [dictInsert]
  | cons p rest ih =>
      by_cases hp : p.1 = k
      · simp [dictInsert, hp]
      · simp [dictInsert, hp, ih]

theorem count_keys_dictInsert {α : Type} (d : List (String × α)) (k : String)
    (v : α) :
    ((dictInsert d k v).map Prod.fst).count k =
      if k ∈ d.map Prod.fst then (d.map Prod.fst).count k
      else (d.map Prod.fst).count k + 1 := by
  induction d with
  | nil => simp [dictInsert]
  | cons p rest ih =>
      by_cases hp : p.1 = k
      · simp [dictInsert, hp, List.count_cons]
      · simp [dictInsert, hp, ih, List.count_cons, Ne.symm hp]
        by_cases hm : k ∈ rest.map Prod.fst <;> simp [hm, Ne.symm hp]

theorem set_append_length {α : Type} (l : List α) (x v : α) :
    (l ++ [x]).set l.length v = l ++ [v] := by
  induction l with
  | nil => rfl
  | cons a t ih => simp [ih]

theorem getD_append_length {α : Type} (l : List α) (x d : α) :
    (l ++ [x]).getD l.length d = x := by
  induction l with
  | nil => rfl
  | cons a t ih => simp [List.getD]

/-- Computation of `_create_operations_table` over an arbitrary store: it
appends one fresh table holding exactly the three operations, and the help
command's captured reference is the fresh table's own reference. -/
theorem create_operations_table_eq (s : Store) :
    ConfigCommand.create_operations_table s =
      (⟨s.tables ++
          [[("foo", OpHandler.doFoo), ("bar", OpHandler.doBar),
            ("help", OpHandler.configHelp s.tables.length)]]⟩,
        s.tables.length) := by
  simp [ConfigCommand.create_operations_table, Store.alloc, Store.insert,
    Store.table, set_append_length, getD_append_length, dictInsert]

/-- Dereferencing the fresh table after `_create_operations_table`. -/
theorem create_operations_table_table (s : Store) :
    Store.table (ConfigCommand.create_operations_table s).1
        (ConfigCommand.create_operations_table s).2 =
      [("foo", OpHandler.doFoo), ("bar", OpHandler.doBar),
       ("help", OpHandler.configHelp s.tables.length)] := by
  simp [create_operations_table_eq, Store.table, getD_append_length]

/-- Every handler call records exactly the operation, the remaining tokens
and the globals it was invoked with. -/
theorem runHandler_invocation (hdl : OpHandler) (op : String)
    (remaining : List String) (g : ParsedGlobals) :
    (runHandler hdl op remaining g).invocation = some ⟨op, remaining, g⟩ := by
  cases hdl <;> rfl

/-! ### Claim theorems -/

/-- C1: invoking the dispatcher with verb "foo" prints exactly the line
"do foo now" (and renders nothing else) with exit status 0, and with verb
"bar" prints exactly "do bar now" with exit status 0, whatever further
tokens, globals and prior store state the invocation has. -/
theorem C1_foo_bar_exact_output (rest : List String) (g : ParsedGlobals)
    (s : Store) :
    (ConfigCommand.call ("foo" :: rest) g s).2.stdout = ["do foo now"] ∧
    (ConfigCommand.call ("foo" :: rest) g s).2.renderedDoc = [] ∧
    (ConfigCommand.call ("foo" :: rest) g s).2.exitStatus = 0 ∧
    (ConfigCommand.call ("bar" :: rest) g s).2.stdout = ["do bar now"] ∧
    (ConfigCommand.call ("bar" :: rest) g s).2.renderedDoc = [] ∧
    (ConfigCommand.call ("bar" :: rest) g s).2.exitStatus = 0 := by
  simp [ConfigCommand.call, create_operations_table_table, parseKnownArgs,
    dictLookup, runHandler, ConfigCommand.do_foo, ConfigCommand.do_bar]

/-- C2: invoking the dispatcher with a first token that is none of "foo",
"bar", "help" is a usage error: nonzero exit status, nothing printed,
nothing rendered, and no sub-operation body runs. -/
theorem C2_unknown_verb_usage_error (v : String) (rest : List String)
    (g : ParsedGlobals) (s : Store) (h1 : v ≠ "foo") (h2 : v ≠ "bar")
    (h3 : v ≠ "help") :
    (ConfigCommand.call (v :: rest) g s).2.exitStatus ≠ 0 ∧
    (ConfigCommand.call (v :: rest) g s).2.stdout = [] ∧
    (ConfigCommand.call (v :: rest) g s).2.renderedDoc = [] ∧
    (ConfigCommand.call (v :: rest) g s).2.invocation = none := by
  simp [ConfigCommand.call, create_operations_table_table, parseKnownArgs,
    h1, h2, h3]

/-- Witness for C2 at the concrete verb "baz". -/
theorem C2_unknown_verb_usage_error_witness :
    (ConfigCommand.call ["baz"] ⟨""⟩ ⟨[]⟩).2.exitStatus ≠ 0 ∧
    (ConfigCommand.call ["baz"] ⟨""⟩ ⟨[]⟩).2.stdout = [] ∧
    (ConfigCommand.call ["baz"] ⟨""⟩ ⟨[]⟩).2.renderedDoc = [] ∧
    (ConfigCommand.call ["baz"] ⟨""⟩ ⟨[]⟩).2.invocation = none :=
  C2_unknown_verb_usage_error "baz" [] ⟨""⟩ ⟨[]⟩ (by decide) (by decide)
    (by decide)

/-- C3: invoking the dispatcher with verb "help" renders a document whose
title heading is `h1 "config"` (the command's name) and whose body
contains the static documentation string, with exit status 0. -/
theorem C3_help_renders_title_and_doc (rest : List String)
    (g : ParsedGlobals) (s : Store) :
    (ConfigCommand.call ("help" :: rest) g s).2.renderedDoc.head? =
      some (DocElem.h1 "config") ∧
    DocElem.docString "Edit the AWSCLI config file" ∈
      (ConfigCommand.call ("help" :: rest) g s).2.renderedDoc ∧
    (ConfigCommand.call ("help" :: rest) g s).2.exitStatus = 0 := by
  simp [ConfigCommand.call, create_operations_table_table, parseKnownArgs,
    dictLookup, runHandler, renderHelp, configHelpView,
    ConfigDocumentEventHandler.title, ConfigDocumentEventHandler.description,
    ConfigHelpCommand.name, ConfigCommand.documentation]

/-- C4 counterexample: at the concrete token list `["xyz"]` no remaining
token matches a key of the operation table, yet the dispatcher does not
select the literal "help": no handler is invoked at all and the run ends
with a usage error (nonzero exit status). -/
theorem C4_counterexample :
    (ConfigCommand.call ["xyz"] ⟨""⟩ ⟨[]⟩).2.invocation = none ∧
    (ConfigCommand.call ["xyz"] ⟨""⟩ ⟨[]⟩).2.exitStatus ≠ 0 := by
  refine ⟨rfl, by decide⟩

/-- C4 (amended): the dispatcher selects the first remaining token as the
requested sub-operation when that token is a key of the operation table;
when there are no remaining tokens it selects the literal "help"; and when
the first token is not a key the invocation fails with a usage error
instead of selecting anything. -/
theorem C4_amended_selection (g : ParsedGlobals) (s : Store) :
    ((ConfigCommand.call [] g s).2.invocation = some ⟨"help", [], g⟩) ∧
    (∀ a rest, a ∈ ["foo", "bar", "help"] →
      (ConfigCommand.call (a :: rest) g s).2.invocation =
        some ⟨a, rest, g⟩) ∧
    (∀ a rest, a ∉ ["foo", "bar", "help"] →
      (ConfigCommand.call (a :: rest) g s).2.invocation = none ∧
      (ConfigCommand.call (a :: rest) g s).2.exitStatus ≠ 0) := by
  refine ⟨?_, ?_, ?_⟩
  · simp [ConfigCommand.call, create_operations_table_table, parseKnownArgs,
      dictLookup, runHandler]
  · intro a rest ha
    simp only [List.mem_cons, List.not_mem_nil, or_false] at ha
    rcases ha with rfl | rfl | rfl
    · simp [ConfigCommand.call, create_operations_table_table,
        parseKnownArgs, dictLookup, runHandler]
    · simp [ConfigCommand.call, create_operations_table_table,
        parseKnownArgs, dictLookup, runHandler]
    · simp [ConfigCommand.call, create_operations_table_table,
        parseKnownArgs, dictLookup, runHandler]
  · intro a rest ha
    simp at ha
    simp [ConfigCommand.call, create_operations_table_table, parseKnownArgs,
      ha.1, ha.2.1, ha.2.2]

/-- Witness for C4 (amended) at the concrete token list `["bar", "x"]`. -/
theorem C4_amended_selection_witness :
    (ConfigCommand.call ["bar", "x"] ⟨""⟩ ⟨[]⟩).2.invocation =
      some ⟨"bar", ["x"], ⟨""⟩⟩ :=
  (C4_amended_selection ⟨""⟩ ⟨[]⟩).2.1 "bar" ["x"] (by decide)

/-- C5: registering twice against the same command table (any table with
at most one pre-existing "config" entry, i.e. any dict) leaves exactly one
entry under the key "config"; `add_command` is total, so no error is
raised. -/
theorem C5_register_twice_single_entry (t : CommandTable)
    (sess1 sess2 : Session)
    (h : ((t.map Prod.fst).count "config") ≤ 1) :
    (((add_command (add_command t sess1) sess2).map Prod.fst).count
      "config") = 1 := by
  have h1 : (((add_command t sess1).map Prod.fst).count "config") = 1 := by
    rw [add_command, count_keys_dictInsert]
    by_cases hm : "config" ∈ t.map Prod.fst
    · simp only [hm, if_true]
      exact Nat.le_antisymm h (List.count_pos_iff.mpr hm)
    · simp [hm, List.count_eq_zero_of_not_mem hm]
  have h2 : "config" ∈ (add_command t sess1).map Prod.fst := by
    apply List.count_pos_iff.mp
    rw [h1]
    exact Nat.one_pos
  rw [add_command, count_keys_dictInsert]
  simp [h2, h1]

/-- Witness for C5 on a table with one pre-existing host command. -/
theorem C5_register_twice_single_entry_witness :
    (((add_command (add_command [("ec2", TopCommand.hostBuiltin 0)] ⟨1⟩)
        ⟨2⟩).map Prod.fst).count "config") = 1 :=
  C5_register_twice_single_entry [("ec2", TopCommand.hostBuiltin 0)] ⟨1⟩ ⟨2⟩
    (by decide)

/-- C6: whenever the dispatcher invokes a handler, the tokens handed to it
are exactly the input tokens with the selected verb removed from the front
(unmodified and in order — or all of them, when no token was given and
"help" was selected by default), together with the unchanged global parsed
options. -/
theorem C6_remaining_passed_unparsed (args : List String)
    (g : ParsedGlobals) (s : Store) (inv : Invocation)
    (h : (ConfigCommand.call args g s).2.invocation = some inv) :
    (args = inv.op :: inv.remaining ∨
      (args = [] ∧ inv.op = "help" ∧ inv.remaining = [])) ∧
    inv.globals = g := by
  cases args with
  | nil =>
      have : inv = ⟨"help", [], g⟩ := by
        simp [ConfigCommand.call, create_operations_table_table,
          parseKnownArgs, dictLookup, runHandler] at h
        exact h.symm
      subst this
      exact ⟨Or.inr ⟨rfl, rfl, rfl⟩, rfl⟩
  | cons a rest =>
      by_cases ha : a ∈ ["foo", "bar", "help"]
      · have : inv = ⟨a, rest, g⟩ := by
          simp only [List.mem_cons, List.not_mem_nil, or_false] at ha
          rcases ha with rfl | rfl | rfl
          · simp [ConfigCommand.call, create_operations_table_table,
              parseKnownArgs, dictLookup, runHandler] at h
            exact h.symm
          · simp [ConfigCommand.call, create_operations_table_table,
              parseKnownArgs, dictLookup, runHandler] at h
            exact h.symm
          · simp [ConfigCommand.call, create_operations_table_table,
              parseKnownArgs, dictLookup, runHandler] at h
            exact h.symm
        subst this
        exact ⟨Or.inl rfl, rfl⟩
      · exfalso
        simp at ha
        simp [ConfigCommand.call, create_operations_table_table,
          parseKnownArgs, ha.1, ha.2.1, ha.2.2] at h

/-- Witness for C6 at the concrete invocation `foo x y`. -/
theorem C6_remaining_passed_unparsed_witness :
    ((["foo", "x", "y"] : List String) =
        (⟨"foo", ["x", "y"], ⟨"G"⟩⟩ : Invocation).op ::
          (⟨"foo", ["x", "y"], ⟨"G"⟩⟩ : Invocation).remaining ∨
      ((["foo", "x", "y"] : List String) = [] ∧
        (⟨"foo", ["x", "y"], ⟨"G"⟩⟩ : Invocation).op = "help" ∧
        (⟨"foo", ["x", "y"], ⟨"G"⟩⟩ : Invocation).remaining = [])) ∧
    (⟨"foo", ["x", "y"], ⟨"G"⟩⟩ : Invocation).globals = ⟨"G"⟩ :=
  C6_remaining_passed_unparsed ["foo", "x", "y"] ⟨"G"⟩ ⟨[]⟩
    ⟨"foo", ["x", "y"], ⟨"G"⟩⟩ (by decide)

/-- C7: on every invocation, `_create_operations_table` builds a fresh
table (its reference indexes a slot past everything already allocated in
the store) whose key list is exactly `foo, bar, help` — each key unique —
mapping `foo` to `do_foo`, `bar` to `do_bar`, and `help` to a
`ConfigHelpCommand` instance. -/
theorem C7_operations_table_shape (s : Store) :
    (Store.table (ConfigCommand.create_operations_table s).1
        (ConfigCommand.create_operations_table s).2).map Prod.fst =
      ["foo", "bar", "help"] ∧
    ((Store.table (ConfigCommand.create_operations_table s).1
        (ConfigCommand.create_operations_table s).2).map Prod.fst).Nodup ∧
    dictLookup (Store.table (ConfigCommand.create_operations_table s).1
        (ConfigCommand.create_operations_table s).2) "foo" =
      some OpHandler.doFoo ∧
    dictLookup (Store.table (ConfigCommand.create_operations_table s).1
        (ConfigCommand.create_operations_table s).2) "bar" =
      some OpHandler.doBar ∧
    (∃ r, dictLookup (Store.table (ConfigCommand.create_operations_table s).1
        (ConfigCommand.create_operations_table s).2) "help" =
      some (OpHandler.configHelp r)) ∧
    (ConfigCommand.create_operations_table s).2 = s.tables.length := by
  refine ⟨?_, ?_, ?_, ?_, ⟨s.tables.length, ?_⟩, ?_⟩ <;>
    simp [create_operations_table_eq, Store.table, getD_append_length,
      dictLookup]

/-- C8: the registration hook's only effect on the command table is the
entry under "config": every entry under any other key is preserved
exactly (same order, same values), and the new "config" entry is the
freshly constructed `ConfigCommand`.  The hook returns nothing in Python;
here the mutated table is the whole result. -/
theorem C8_add_command_frame (t : CommandTable) (sess : Session) :
    dictLookup (add_command t sess) "config" =
      some (TopCommand.config ⟨"config", sess⟩) ∧
    (add_command t sess).filter (fun p => p.1 != "config") =
      t.filter (fun p => p.1 != "config") := by
  exact ⟨dictLookup_dictInsert_self t "config" _,
    filter_dictInsert t "config" _⟩

/-- C9: the sub-operation bodies `do_foo` and `do_bar` never fail and
each has exactly one observable effect — printing its fixed line — and
when the dispatcher runs them the result consumed from them is only that
output (exit status 0, nothing rendered). -/
theorem C9_sub_operations_print_one_line (remaining : List String)
    (g : ParsedGlobals) (op : String) :
    ConfigCommand.do_foo remaining g = ["do foo now"] ∧
    ConfigCommand.do_bar remaining g = ["do bar now"] ∧
    (runHandler OpHandler.doFoo op remaining g).stdout = ["do foo now"] ∧
    (runHandler OpHandler.doFoo op remaining g).renderedDoc = [] ∧
    (runHandler OpHandler.doFoo op remaining g).exitStatus = 0 ∧
    (runHandler OpHandler.doBar op remaining g).stdout = ["do bar now"] ∧
    (runHandler OpHandler.doBar op remaining g).renderedDoc = [] ∧
    (runHandler OpHandler.doBar op remaining g).exitStatus = 0 := by
  simp [ConfigCommand.do_foo, ConfigCommand.do_bar, runHandler]

/-- C10: the `ConfigHelpCommand` stored under "help" holds, as its
`command_table`, a reference to the operation table itself: dereferencing
the help command's captured reference yields the very table containing
"foo", "bar" and the "help" entry that is the help command itself. -/
theorem C10_help_command_self_reference (s : Store) :
    ∃ r, (ConfigCommand.create_operations_table s).2 = r ∧
      dictLookup (Store.table (ConfigCommand.create_operations_table s).1 r)
          "help" = some (OpHandler.configHelp r) ∧
      Store.table (ConfigCommand.create_operations_table s).1 r =
        [("foo", OpHandler.doFoo), ("bar", OpHandler.doBar),
         ("help", OpHandler.configHelp r)] := by
  refine ⟨(ConfigCommand.create_operations_table s).2, rfl, ?_, ?_⟩ <;>
    simp [create_operations_table_eq, Store.table, getD_append_length,
      dictLookup]

end NewCommand
